import Mathlib

/-!
Shallow embedding of the toll-calculator (TypeScript implementation:
`src/models/TollCalculator.ts`, `src/models/Vehicle.ts`,
`src/services/DateService.ts`) and proofs of the specification claims.

Timestamps are modelled as a JS `Date` observed through its local-time
accessors at minute granularity; the core treats all timestamps as being in
one fixed local time (per the spec's external-interface contract), so the
local accessors (`getFullYear`/`getMonth`/`getDate`/`getDay`/`getTime`) and
the UTC-based `toISOString` day string agree on the calendar day.
-/

set_option maxRecDepth 8000

namespace Toll

/-- A JS `Date`: `year` is `getFullYear`, `month` is the 0-based `getMonth`,
`day` stores `getDate - 1` (so `getDate ∈ 1..31`), `hour`/`minute` are
`getHours`/`getMinutes`. -/
structure DateTime where
  year : Nat
  month : Fin 12
  day : Fin 31
  hour : Fin 24
  minute : Fin 60
deriving DecidableEq, Repr

/-- Days elapsed since 0000-03-01 for a civil date with 1-based month,
standard proleptic-Gregorian day-numbering algorithm (the arithmetic
underlying JS epoch-time for local dates). -/
def daysFromCivil (y m d : Nat) : Nat :=
  let y2 := if m ≤ 2 then y - 1 else y
  let era := y2 / 400
  let yoe := y2 % 400
  let mp := if 2 < m then m - 3 else m + 9
  let doy := (153 * mp + 2) / 5 + (d - 1)
  let doe := yoe * 365 + yoe / 4 - yoe / 100 + doy
  era * 146097 + doe

def DateTime.absDay (dt : DateTime) : Nat :=
  daysFromCivil dt.year (dt.month.val + 1) (dt.day.val + 1)

/-- JS `Date.prototype.getTime`, rescaled to minutes (the code only ever
compares times or divides differences by 60000, and passages have minute
precision). -/
def DateTime.getTime (dt : DateTime) : Nat :=
  dt.absDay * 1440 + dt.hour.val * 60 + dt.minute.val

/-- JS `Date.prototype.getDay`: 0 = Sunday … 6 = Saturday.
(1970-01-01, `absDay = 719468`, was a Thursday, day number 4.) -/
def DateTime.getDay (dt : DateTime) : Nat :=
  (dt.absDay + 3) % 7

/-! ### Decimal formatting (JS `Number.prototype.toString` and `padStart`) -/

def digitChar (n : Nat) : Char := Char.ofNat (48 + n)

def natDigitsCore : Nat → Nat → List Char
  | 0, _ => []
  | fuel + 1, n =>
    if n < 10 then [digitChar n]
    else natDigitsCore fuel (n / 10) ++ [digitChar (n % 10)]

def natDigits (n : Nat) : List Char := natDigitsCore (n + 1) n

def natToString (n : Nat) : String := ⟨natDigits n⟩

/-- JS `String.prototype.padStart(w, '0')`. -/
def padStart (w : Nat) (s : String) : String :=
  ⟨List.replicate (w - s.length) '0' ++ s.data⟩

def pad2 (n : Nat) : String := padStart 2 (natToString n)

def pad4 (n : Nat) : String := padStart 4 (natToString n)

/-! ### String comparison (JS relational operators on strings are
lexicographic by UTF-16 code unit; all strings involved are ASCII) -/

def lexLt : List Char → List Char → Bool
  | [], [] => false
  | [], _ :: _ => true
  | _ :: _, [] => false
  | a :: as, b :: bs =>
    if a.toNat < b.toNat then true
    else if b.toNat < a.toNat then false
    else lexLt as bs

def strLt (a b : String) : Bool := lexLt a.data b.data

def strLe (a b : String) : Bool := !strLt b a

/-! ### Vehicles (`Vehicle.ts`) -/

inductive VehicleType
  | car | motorbike | tractor | emergency | diplomat | foreign | military | bus
deriving DecidableEq, BEq, Repr

structure Vehicle where
  type : VehicleType
deriving DecidableEq

def Vehicle.isTollFree (v : Vehicle) : Bool :=
  [VehicleType.motorbike, VehicleType.emergency, VehicleType.diplomat,
   VehicleType.foreign, VehicleType.military, VehicleType.tractor,
   VehicleType.bus].contains v.type

/-! ### DateService (`DateService.ts`); the holiday set is injected data,
modelled as the list of its `toDateString` values -/

/-- `DateService.toDateString`: `date.toISOString().split('T')[0]`
(YYYY-MM-DD, 4-digit-padded year). -/
def toDateString (dt : DateTime) : String :=
  pad4 dt.year ++ "-" ++ pad2 (dt.month.val + 1) ++ "-" ++ pad2 (dt.day.val + 1)

def isHoliday (holidays : List String) (dt : DateTime) : Bool :=
  holidays.contains (toDateString dt)

def isTollFreeDate (holidays : List String) (dt : DateTime) : Bool :=
  let dayOfWeek := dt.getDay
  if dayOfWeek == 0 || dayOfWeek == 6 then true
  else isHoliday holidays dt

/-! ### Tariff table (`TollCalculator` constructor) -/

structure TollFeeInterval where
  start : String
  stop : String
  fee : Nat
deriving Repr

def tollFeeIntervals : List TollFeeInterval :=
  [⟨"06:00", "06:29", 8⟩,
   ⟨"06:30", "06:59", 13⟩,
   ⟨"07:00", "07:59", 18⟩,
   ⟨"08:00", "08:29", 13⟩,
   ⟨"08:30", "14:59", 8⟩,
   ⟨"15:00", "15:29", 13⟩,
   ⟨"15:30", "16:59", 18⟩,
   ⟨"17:00", "17:59", 13⟩,
   ⟨"18:00", "18:29", 8⟩,
   ⟨"18:30", "05:59", 0⟩]

/-- `TollCalculator.isTimeInInterval` (the interval end field is `stop`
here since `end` is reserved in Lean). -/
def isTimeInInterval (time start stop : String) : Bool :=
  if strLt stop start then strLe start time || strLe time stop
  else strLe start time && strLe time stop

/-- The "HH:MM" string `calculateFeeByTime` builds from the date. -/
def timeString (h : Fin 24) (m : Fin 60) : String :=
  pad2 h.val ++ ":" ++ pad2 m.val

/-- `TollCalculator.calculateFeeByTime`, factored through hour/minute (the
only fields it reads). `List.find?` is the first-match scan; the `none`
branch is the logged safe-default 0. -/
def calculateFeeByTimeHM (h : Fin 24) (m : Fin 60) : Nat :=
  match tollFeeIntervals.find?
      (fun iv => isTimeInInterval (timeString h m) iv.start iv.stop) with
  | some iv => iv.fee
  | none => 0

def calculateFeeByTime (dt : DateTime) : Nat :=
  calculateFeeByTimeHM dt.hour dt.minute

/-- `TollCalculator.calculateFee`. -/
def calculateFee (holidays : List String) (vehicle : Vehicle) (date : DateTime) : Nat :=
  if vehicle.isTollFree then 0
  else if isTollFreeDate holidays date then 0
  else calculateFeeByTime date

/-! ### Daily fee (`TollCalculator.calculateTotalDailyFee` and helpers).
Failure (`throw`) is modelled with `Except String`. -/

/-- `PassageWithFee`: the passage's `getTime` (minutes) and its raw fee. -/
structure PassageWithFee where
  time : Nat
  fee : Nat
deriving DecidableEq, Repr

def maxDailyFee : Nat := 60

def shouldSkipFeeCalculation (vehicle : Vehicle) (dates : List DateTime) : Bool :=
  vehicle.isTollFree || dates.length == 0

/-- The per-passage day-equality test of `validateSameDayPassages`
(`getFullYear`/`getMonth`/`getDate` all equal). -/
def sameDay (a b : DateTime) : Bool :=
  a.year == b.year && a.month == b.month && a.day == b.day

/-- `TollCalculator.formatDate` (YYYY-MM-DD; month and day zero-padded to
width 2, the year printed as-is). -/
def formatDate (dt : DateTime) : String :=
  natToString dt.year ++ "-" ++ pad2 (dt.month.val + 1) ++ "-" ++ pad2 (dt.day.val + 1)

def validateSameDayPassages (dates : List DateTime) : Except String Unit :=
  match dates with
  | [] => .error "Invalid date format in passage list"
  | firstDate :: _ =>
    if dates.all (fun d => sameDay d firstDate) then .ok ()
    else
      .error ("All passages must be on the same day. Received dates: " ++
        String.intercalate ", " (dates.map formatDate))

/-- The ascending-`getTime` order induced by the JS numeric comparator
`(a, b) => a.getTime() - b.getTime()`. -/
def chronoLe (a b : DateTime) : Bool :=
  a.getTime ≤ b.getTime

/-- JS stable numeric-comparator sort `[...dates].sort((a,b) => a.getTime() - b.getTime())`. -/
def sortDatesChronologically (dates : List DateTime) : List DateTime :=
  List.mergeSort dates chronoLe

def mapPassagesToFees (dates : List DateTime) : List PassageWithFee :=
  dates.map (fun d => ⟨d.getTime, calculateFeeByTime d⟩)

/-- The 60-minute window test of `findHighestFeeInTimeWindow`:
`timeDiffMinutes < 60` with `timeDiffMinutes` the signed difference of the
two `getTime` values in minutes. -/
def inWindowOf (startTime : Nat) (q : PassageWithFee) : Bool :=
  (q.time : Int) - (startTime : Int) < 60

/-- The inner `while` of `findHighestFeeInTimeWindow`: walk forward while
the time difference to the window's start passage is under 60 minutes,
accumulating the maximum fee; return the maximum and the passages not
consumed (the first of which broke the bound). -/
def findHighestInWindow (startTime highest : Nat) : List PassageWithFee → Nat × List PassageWithFee
  | [] => (highest, [])
  | p :: rest =>
    if inWindowOf startTime p then
      findHighestInWindow startTime (max highest p.fee) rest
    else (highest, p :: rest)

/-- `TollCalculator.findHighestFeeInTimeWindow`, with the array suffix after
`startIndex` passed as a list. -/
def findHighestFeeInTimeWindow (startPassage : PassageWithFee)
    (rest : List PassageWithFee) : Nat × List PassageWithFee :=
  findHighestInWindow startPassage.time startPassage.fee rest

/-- The `while (windowStartIndex < passages.length)` loop of
`calculateFeeWithHourlyRule`; the fuel argument (instantiated with the list
length, which bounds the number of iterations) keeps the recursion
structural. -/
def hourlyLoop : Nat → List PassageWithFee → Nat
  | 0, _ => 0
  | _, [] => 0
  | fuel + 1, p :: rest =>
    let res := findHighestFeeInTimeWindow p rest
    res.1 + hourlyLoop fuel res.2

def calculateFeeWithHourlyRule (passages : List PassageWithFee) : Nat :=
  hourlyLoop passages.length passages

/-- `TollCalculator.calculateTotalDailyFee`. -/
def calculateTotalDailyFee (holidays : List String) (vehicle : Vehicle)
    (dates : List DateTime) : Except String Nat :=
  if shouldSkipFeeCalculation vehicle dates then .ok 0
  else
    match validateSameDayPassages dates with
    | .error e => .error e
    | .ok _ =>
      match dates with
      | [] => .error "Invalid date format in passage list"
      | firstDate :: _ =>
        if isTollFreeDate holidays firstDate then .ok 0
        else
          let sortedDates := sortDatesChronologically dates
          let passagesWithFees := mapPassagesToFees sortedDates
          let totalFee := calculateFeeWithHourlyRule passagesWithFees
          .ok (min totalFee maxDailyFee)

/-! ### Monthly fee (`TollCalculator.calculateTotalMonthlyFee`) -/

structure DailyPassageDetails where
  date : String
  passages : List String
  fee : Nat
deriving DecidableEq, Repr

structure MonthlyFeeSummary where
  totalFee : Nat
  dailyBreakdown : List DailyPassageDetails
deriving DecidableEq, Repr

/-- The "HH:MM" rendering of a passage used in the daily breakdown. -/
def formatTimeHM (dt : DateTime) : String :=
  pad2 dt.hour.val ++ ":" ++ pad2 dt.minute.val

/-- One step of filling the insertion-ordered `Map<string, Date[]>`:
append to the existing group for the key, or add a new group at the end. -/
def addToGroup : List (String × List DateTime) → String → DateTime → List (String × List DateTime)
  | [], k, d => [(k, [d])]
  | (k2, ds) :: rest, k, d =>
    if k2 == k then (k2, ds ++ [d]) :: rest
    else (k2, ds) :: addToGroup rest k d

/-- The `passagesByDay` map of `calculateTotalMonthlyFee`: groups in first-
encounter order, each group in input order, keyed by `formatDate`. -/
def passagesByDay (dates : List DateTime) : List (String × List DateTime) :=
  dates.foldl (fun m d => addToGroup m (formatDate d) d) []

/-- The `for (const [dayKey, dayPassages] of passagesByDay)` loop: sort the
group, price it, and (only when the fee is nonzero) record it in the
breakdown and add it to the total. -/
def monthlyLoop (holidays : List String) (vehicle : Vehicle) :
    List (String × List DateTime) → Except String (Nat × List DailyPassageDetails)
  | [] => .ok (0, [])
  | (dayKey, dayPassages) :: rest =>
    let sortedPassages := List.mergeSort dayPassages chronoLe
    match calculateTotalDailyFee holidays vehicle sortedPassages with
    | .error e => .error e
    | .ok dailyFee =>
      match monthlyLoop holidays vehicle rest with
      | .error e => .error e
      | .ok (t, bd) =>
        if 0 < dailyFee then
          .ok (dailyFee + t, ⟨dayKey, sortedPassages.map formatTimeHM, dailyFee⟩ :: bd)
        else .ok (t, bd)

/-- `TollCalculator.calculateTotalMonthlyFee`; the final `.sort` on the
breakdown compares the fixed-format date strings (`localeCompare` on ASCII
date strings is code-unit lexicographic order). -/
def calculateTotalMonthlyFee (holidays : List String) (vehicle : Vehicle)
    (dates : List DateTime) : Except String MonthlyFeeSummary :=
  if vehicle.isTollFree || dates.length == 0 then .ok ⟨0, []⟩
  else
    match monthlyLoop holidays vehicle (passagesByDay dates) with
    | .error e => .error e
    | .ok (t, bd) => .ok ⟨t, List.mergeSort bd (fun a b => strLe a.date b.date)⟩

/-! ### Spec-side reference definitions (used to state refinement claims;
these follow the specification's words, not the code) -/

/-- The tariff table exactly as the spec's claim enumerates it, at minute
granularity: 06:00–06:29→8, 06:30–06:59→13, 07:00–07:59→18, 08:00–08:29→13,
08:30–14:59→8, 15:00–15:29→13, 15:30–16:59→18, 17:00–17:59→13,
18:00–18:29→8, 0 otherwise. -/
def specTariffFee (h m : Nat) : Nat :=
  let t := h * 60 + m
  if 360 ≤ t ∧ t ≤ 389 then 8
  else if 390 ≤ t ∧ t ≤ 419 then 13
  else if 420 ≤ t ∧ t ≤ 479 then 18
  else if 480 ≤ t ∧ t ≤ 509 then 13
  else if 510 ≤ t ∧ t ≤ 899 then 8
  else if 900 ≤ t ∧ t ≤ 929 then 13
  else if 930 ≤ t ∧ t ≤ 1019 then 18
  else if 1020 ≤ t ∧ t ≤ 1079 then 13
  else if 1080 ≤ t ∧ t ≤ 1109 then 8
  else 0

/-- The spec's anchored rolling-window rule: take the first uncollapsed
passage as anchor, form the window of all passages strictly less than 60
minutes after it (scanning forward to the first violation), contribute the
maximum raw fee in the window, and continue from the first passage outside
the window. Fuel (instantiated with the list length) keeps the recursion
structural. -/
def refRollingLoop : Nat → List PassageWithFee → Nat
  | 0, _ => 0
  | _, [] => 0
  | fuel + 1, anchor :: rest =>
    let window := anchor :: rest.takeWhile (inWindowOf anchor.time)
    let highest := (window.map (fun q => q.fee)).foldl max 0
    highest + refRollingLoop fuel (rest.dropWhile (inWindowOf anchor.time))

def refRollingTotal (l : List PassageWithFee) : Nat :=
  refRollingLoop l.length l

/-- The spec's full reference for the daily fee: sort chronologically,
resolve raw tariff fees, collapse by the anchored rolling window, cap at
60. -/
def refDailyFee (dates : List DateTime) : Nat :=
  min (refRollingTotal ((List.mergeSort dates chronoLe).map
    (fun d => ⟨d.getTime, calculateFeeByTime d⟩))) 60

/-- The daily fee a group of the monthly partition resolves to (the group
is sorted before pricing, as in `calculateTotalMonthlyFee`). -/
def dailyVal (holidays : List String) (vehicle : Vehicle)
    (g : String × List DateTime) : Nat :=
  (calculateTotalDailyFee holidays vehicle
    (List.mergeSort g.2 chronoLe)).toOption.getD 0

/-- The breakdown entry a nonzero-fee group of the monthly partition
produces. -/
def mkEntry (holidays : List String) (vehicle : Vehicle)
    (g : String × List DateTime) : Option DailyPassageDetails :=
  let fee := dailyVal holidays vehicle g
  if 0 < fee then
    some ⟨g.1, (List.mergeSort g.2 chronoLe).map formatTimeHM, fee⟩
  else none

/-- Value of a decimal-digit string, for the round-trip proof of
`natToString`. -/
def digitsVal (l : List Char) : Nat :=
  l.foldl (fun a c => 10 * a + (c.toNat - 48)) 0

/-! ## Lemmas: decimal formatting -/

lemma digitChar_toNat (n : Nat) (h : n < 10) : (digitChar n).toNat = 48 + n := by
  interval_cases n <;> decide

lemma digitsVal_append (l : List Char) (c : Char) :
    digitsVal (l ++ [c]) = 10 * digitsVal l + (c.toNat - 48) := by
  simp [digitsVal, List.foldl_append]

lemma natDigitsCore_val : ∀ (fuel n : Nat), n < 10 ^ fuel →
    digitsVal (natDigitsCore fuel n) = n := by
  intro fuel
  induction fuel with
  | zero =>
    intro n hn
    simp at hn
    subst hn
    rfl
  | succ fuel ih =>
    intro n hn
    by_cases h10 : n < 10
    · simp [natDigitsCore, h10, digitsVal, digitChar_toNat n h10]
    · have hdiv : n / 10 < 10 ^ fuel := by
        rw [Nat.div_lt_iff_lt_mul (by omega)]
        calc n < 10 ^ (fuel + 1) := hn
        _ = 10 ^ fuel * 10 := by ring
      have hmod : n % 10 < 10 := Nat.mod_lt _ (by omega)
      simp only [natDigitsCore, h10, if_false]
      rw [digitsVal_append, ih _ hdiv, digitChar_toNat _ hmod]
      omega

lemma natDigits_val (n : Nat) : digitsVal (natDigits n) = n := by
  apply natDigitsCore_val
  calc n < 10 ^ n := Nat.lt_pow_self (by omega) n
  _ ≤ 10 ^ (n + 1) := Nat.pow_le_pow_right (by omega) (by omega)

lemma natToString_inj {a b : Nat} (h : natToString a = natToString b) : a = b := by
  have hd : natDigits a = natDigits b := congrArg String.data h
  have := congrArg digitsVal hd
  rwa [natDigits_val, natDigits_val] at this

lemma pad2_length (n : Nat) (h : n < 100) : (pad2 n).data.length = 2 := by
  revert h
  revert n
  decide

lemma pad2_inj_aux : ∀ a : Nat, a < 100 → ∀ b : Nat, b < 100 → pad2 a = pad2 b → a = b := by
  decide

lemma pad2_inj {a b : Nat} (ha : a < 100) (hb : b < 100) (h : pad2 a = pad2 b) :
    a = b :=
  pad2_inj_aux a ha b hb h

/-! ## Lemmas: lexicographic string order -/

lemma lexLt_asymm : ∀ a b : List Char, lexLt a b = true → lexLt b a = false := by
  intro a
  induction a with
  | nil => intro b _; cases b <;> simp [lexLt]
  | cons x xs ih =>
    intro b hab
    cases b with
    | nil => simp [lexLt] at hab
    | cons y ys =>
      simp only [lexLt] at hab ⊢
      by_cases h1 : x.toNat < y.toNat
      · simp [h1, show ¬ y.toNat < x.toNat by omega]
      · by_cases h2 : y.toNat < x.toNat
        · simp [h1, h2] at hab
        · simp only [h1, h2, if_false] at hab ⊢
          simp [show ¬ y.toNat < x.toNat by omega, h2, ih ys hab]

lemma lexLt_trans : ∀ a b c : List Char,
    lexLt a b = true → lexLt b c = true → lexLt a c = true := by
  intro a
  induction a with
  | nil =>
    intro b c hab hbc
    cases b with
    | nil => simp [lexLt] at hab
    | cons y ys => cases c with
      | nil => simp [lexLt] at hbc
      | cons z zs => simp [lexLt]
  | cons x xs ih =>
    intro b c hab hbc
    cases b with
    | nil => simp [lexLt] at hab
    | cons y ys =>
      cases c with
      | nil => simp [lexLt] at hbc
      | cons z zs =>
        simp only [lexLt] at hab hbc ⊢
        by_cases hxy : x.toNat < y.toNat
        · by_cases hyz : y.toNat < z.toNat
          · rw [if_pos (show x.toNat < z.toNat by omega)]
          · rw [if_neg hyz] at hbc
            by_cases hzy : z.toNat < y.toNat
            · rw [if_pos hzy] at hbc; cases hbc
            · rw [if_pos (show x.toNat < z.toNat by omega)]
        · rw [if_neg hxy] at hab
          by_cases hyx : y.toNat < x.toNat
          · rw [if_pos hyx] at hab; cases hab
          · rw [if_neg hyx] at hab
            by_cases hyz : y.toNat < z.toNat
            · rw [if_pos (show x.toNat < z.toNat by omega)]
            · rw [if_neg hyz] at hbc
              by_cases hzy : z.toNat < y.toNat
              · rw [if_pos hzy] at hbc; cases hbc
              · rw [if_neg hzy] at hbc
                rw [if_neg (show ¬ x.toNat < z.toNat by omega),
                  if_neg (show ¬ z.toNat < x.toNat by omega)]
                exact ih ys zs hab hbc

lemma lexLt_conn : ∀ a b : List Char, lexLt a b = false → lexLt b a = false → a = b := by
  intro a
  induction a with
  | nil => intro b hab _; cases b with
    | nil => rfl
    | cons y ys => simp [lexLt] at hab
  | cons x xs ih =>
    intro b hab hba
    cases b with
    | nil => simp [lexLt] at hba
    | cons y ys =>
      simp only [lexLt] at hab hba
      by_cases h1 : x.toNat < y.toNat
      · rw [if_pos h1] at hab; cases hab
      · rw [if_neg h1] at hab
        by_cases h2 : y.toNat < x.toNat
        · rw [if_pos h2] at hba; cases hba
        · rw [if_neg h2] at hab
          rw [if_neg (show ¬ y.toNat < x.toNat from h2)] at hba
          rw [if_neg (show ¬ x.toNat < y.toNat from h1)] at hba
          have hx : x = y := by
            have hnn : x.toNat = y.toNat := by omega
            calc x = Char.ofNat x.toNat := (Char.ofNat_toNat x).symm
            _ = Char.ofNat y.toNat := by rw [hnn]
            _ = y := Char.ofNat_toNat y
          rw [hx, ih ys hab hba]

lemma strLe_total (a b : String) : (strLe a b || strLe b a) = true := by
  simp only [strLe, strLt, Bool.or_eq_true, Bool.not_eq_true']
  by_cases h : lexLt b.data a.data = true
  · right
    exact lexLt_asymm _ _ h
  · left
    simpa using h

lemma strLe_trans {a b c : String} (hab : strLe a b = true) (hbc : strLe b c = true) :
    strLe a c = true := by
  simp only [strLe, strLt, Bool.not_eq_true'] at hab hbc ⊢
  by_cases hca : lexLt c.data a.data = true
  · exfalso
    by_cases hab2 : lexLt a.data b.data = true
    · have h2 := lexLt_trans _ _ _ hca hab2
      rw [h2] at hbc
      cases hbc
    · have heq : a.data = b.data := lexLt_conn _ _ (by simpa using hab2) hab
      rw [heq] at hca
      rw [hca] at hbc
      cases hbc
  · simpa using hca

/-! ## Lemmas: formatDate injectivity and the same-day predicate -/

lemma pad2_data_inj : ∀ a : Nat, a < 100 → ∀ b : Nat, b < 100 →
    (pad2 a).data = (pad2 b).data → a = b := by
  decide

lemma natToString_data_inj {a b : Nat}
    (h : (natToString a).data = (natToString b).data) : a = b := by
  have := congrArg digitsVal h
  rwa [show (natToString a).data = natDigits a from rfl,
    show (natToString b).data = natDigits b from rfl,
    natDigits_val, natDigits_val] at this

lemma formatDate_inj_fields {a b : DateTime} (h : formatDate a = formatDate b) :
    a.year = b.year ∧ a.month = b.month ∧ a.day = b.day := by
  have hd := congrArg String.data h
  simp only [formatDate, String.data_append, List.append_assoc] at hd
  have hlen : ∀ n : Nat, n < 100 →
      (("-" : String).data ++ (pad2 n).data).length = 3 := by
    intro n hn
    simp [List.length_append, pad2_length n hn]
  have hsuffix : ∀ (m d : Nat), m < 100 → d < 100 →
      (("-" : String).data ++ ((pad2 m).data ++
        (("-" : String).data ++ (pad2 d).data))).length = 6 := by
    intro m d hm hdlt
    simp [List.length_append, pad2_length m hm, pad2_length d hdlt]
  have h1 := List.append_inj' hd
    (by rw [hsuffix _ _ (by omega) (by omega), hsuffix _ _ (by omega) (by omega)])
  have hyear : a.year = b.year := natToString_data_inj h1.1
  have h2 := List.append_inj_right h1.2 (by rfl)
  have h3 := List.append_inj' h2
    (by rw [hlen _ (by omega), hlen _ (by omega)])
  have hmonth : a.month = b.month := by
    have := pad2_data_inj _ (by omega) _ (by omega) h3.1
    exact Fin.ext (by omega)
  have h4 := List.append_inj_right h3.2 (by rfl)
  have hday : a.day = b.day := by
    have := pad2_data_inj _ (by omega) _ (by omega) h4
    exact Fin.ext (by omega)
  exact ⟨hyear, hmonth, hday⟩

lemma sameDay_iff {a b : DateTime} :
    sameDay a b = true ↔ a.year = b.year ∧ a.month = b.month ∧ a.day = b.day := by
  simp [sameDay, Bool.and_eq_true, beq_iff_eq, and_assoc]

lemma sameDay_refl (a : DateTime) : sameDay a a = true := by
  simp [sameDay_iff]

lemma sameDay_symm {a b : DateTime} (h : sameDay a b = true) : sameDay b a = true := by
  rw [sameDay_iff] at h ⊢
  exact ⟨h.1.symm, h.2.1.symm, h.2.2.symm⟩

lemma sameDay_trans {a b c : DateTime} (h1 : sameDay a b = true)
    (h2 : sameDay b c = true) : sameDay a c = true := by
  rw [sameDay_iff] at h1 h2 ⊢
  exact ⟨h1.1.trans h2.1, h1.2.1.trans h2.2.1, h1.2.2.trans h2.2.2⟩

lemma formatDate_eq_of_sameDay {a b : DateTime} (h : sameDay a b = true) :
    formatDate a = formatDate b := by
  rw [sameDay_iff] at h
  simp [formatDate, h.1, h.2.1, h.2.2]

lemma sameDay_of_formatDate_eq {a b : DateTime} (h : formatDate a = formatDate b) :
    sameDay a b = true := by
  rw [sameDay_iff]
  exact formatDate_inj_fields h

/-- `isTollFreeDate` and `calculateFeeByTime`-independent day data: the
toll-free decision only reads the calendar-day fields. -/
lemma isTollFreeDate_congr (holidays : List String) {a b : DateTime}
    (h : sameDay a b = true) : isTollFreeDate holidays a = isTollFreeDate holidays b := by
  rw [sameDay_iff] at h
  simp [isTollFreeDate, DateTime.getDay, DateTime.absDay, isHoliday, toDateString,
    h.1, h.2.1, h.2.2]

/-! ## Lemmas: the tariff table -/

lemma tariff_eval : ∀ (h : Fin 24) (m : Fin 60),
    calculateFeeByTimeHM h m = specTariffFee h.val m.val ∧
    (tollFeeIntervals.find?
      (fun iv => isTimeInInterval (timeString h m) iv.start iv.stop)).isSome = true := by
  decide

lemma specTariffFee_le (h m : Nat) : specTariffFee h m ≤ 18 := by
  unfold specTariffFee
  dsimp only
  split_ifs <;> omega

lemma calculateFeeByTimeHM_le (h : Fin 24) (m : Fin 60) :
    calculateFeeByTimeHM h m ≤ 18 := by
  rw [(tariff_eval h m).1]
  exact specTariffFee_le _ _

lemma calculateFeeByTime_le (dt : DateTime) : calculateFeeByTime dt ≤ 18 :=
  calculateFeeByTimeHM_le dt.hour dt.minute

/-! ## Lemmas: the rolling 60-minute window -/

lemma findHighestInWindow_spec (startTime : Nat) :
    ∀ (l : List PassageWithFee) (acc : Nat),
    findHighestInWindow startTime acc l =
      (((l.takeWhile (inWindowOf startTime)).map (fun q => q.fee)).foldl max acc,
       l.dropWhile (inWindowOf startTime)) := by
  intro l
  induction l with
  | nil => intro acc; rfl
  | cons p rest ih =>
    intro acc
    by_cases hp : inWindowOf startTime p
    · simp [findHighestInWindow, List.takeWhile_cons, List.dropWhile_cons, hp, ih]
    · simp [findHighestInWindow, List.takeWhile_cons, List.dropWhile_cons, hp]

lemma hourlyLoop_eq_refRollingLoop : ∀ (fuel : Nat) (l : List PassageWithFee),
    l.length ≤ fuel → hourlyLoop fuel l = refRollingLoop fuel l := by
  intro fuel
  induction fuel with
  | zero => intro l _; cases l <;> rfl
  | succ fuel ih =>
    intro l hl
    cases l with
    | nil => rfl
    | cons p rest =>
      have hdrop : (rest.dropWhile (inWindowOf p.time)).length ≤ fuel := by
        have h1 : (rest.dropWhile (inWindowOf p.time)).length ≤ rest.length :=
          List.Sublist.length_le (List.dropWhile_sublist _)
        simp at hl
        omega
      simp only [hourlyLoop, refRollingLoop, findHighestFeeInTimeWindow,
        findHighestInWindow_spec]
      rw [ih _ hdrop]
      congr 1
      simp [Nat.zero_max]

/-- `calculateFeeWithHourlyRule` coincides with the spec's anchored
rolling-window total on every passage list. -/
lemma hourlyRule_eq_ref (l : List PassageWithFee) :
    calculateFeeWithHourlyRule l = refRollingTotal l :=
  hourlyLoop_eq_refRollingLoop l.length l le_rfl

/-! ## Lemmas: evaluating `calculateTotalDailyFee` branch by branch -/

lemma daily_empty (holidays : List String) (v : Vehicle) :
    calculateTotalDailyFee holidays v [] = .ok 0 := by
  simp [calculateTotalDailyFee, shouldSkipFeeCalculation]

lemma daily_exempt (holidays : List String) {v : Vehicle} (dates : List DateTime)
    (hv : v.isTollFree = true) :
    calculateTotalDailyFee holidays v dates = .ok 0 := by
  simp [calculateTotalDailyFee, shouldSkipFeeCalculation, hv]

lemma daily_eval (holidays : List String) {v : Vehicle} {first : DateTime}
    {rest : List DateTime} (hv : v.isTollFree = false)
    (hsame : (first :: rest).all (fun d => sameDay d first) = true)
    (hfree : isTollFreeDate holidays first = false) :
    calculateTotalDailyFee holidays v (first :: rest) =
      .ok (min (calculateFeeWithHourlyRule
        (mapPassagesToFees (sortDatesChronologically (first :: rest)))) maxDailyFee) := by
  simp [calculateTotalDailyFee, shouldSkipFeeCalculation, hv,
    validateSameDayPassages, hsame, hfree]

lemma daily_tollfree (holidays : List String) {v : Vehicle} {first : DateTime}
    {rest : List DateTime} (hv : v.isTollFree = false)
    (hsame : (first :: rest).all (fun d => sameDay d first) = true)
    (hfree : isTollFreeDate holidays first = true) :
    calculateTotalDailyFee holidays v (first :: rest) = .ok 0 := by
  simp [calculateTotalDailyFee, shouldSkipFeeCalculation, hv,
    validateSameDayPassages, hsame, hfree]

lemma daily_error (holidays : List String) {v : Vehicle} {first : DateTime}
    {rest : List DateTime} (hv : v.isTollFree = false)
    (hsame : (first :: rest).all (fun d => sameDay d first) = false) :
    calculateTotalDailyFee holidays v (first :: rest) =
      .error ("All passages must be on the same day. Received dates: " ++
        String.intercalate ", " ((first :: rest).map formatDate)) := by
  simp [calculateTotalDailyFee, shouldSkipFeeCalculation, hv,
    validateSameDayPassages, hsame]

lemma allSameDay_pairs {first : DateTime} {rest : List DateTime}
    (h : (first :: rest).all (fun d => sameDay d first) = true) :
    ∀ a ∈ first :: rest, ∀ b ∈ first :: rest, sameDay a b = true := by
  intro a ha b hb
  have haf := List.all_eq_true.mp h a ha
  have hbf := List.all_eq_true.mp h b hb
  exact sameDay_trans haf (sameDay_symm hbf)

lemma all_to_first {first : DateTime} {rest : List DateTime}
    (h : ∀ a ∈ first :: rest, ∀ b ∈ first :: rest, sameDay a b = true) :
    (first :: rest).all (fun d => sameDay d first) = true :=
  List.all_eq_true.mpr fun d hd => h d hd first (List.mem_cons_self _ _)

/-! ## Claim C3 -/

/-- C3: for every time of day, the tariff lookup (first-matching-interval
scan with inclusive bounds and wrap-around handling) yields exactly the
piecewise table of the spec: 8 for 06:00–06:29, 13 for 06:30–06:59, 18 for
07:00–07:59, 13 for 08:00–08:29, 8 for 08:30–14:59, 13 for 15:00–15:29, 18
for 15:30–16:59, 13 for 17:00–17:59, 8 for 18:00–18:29, and 0 otherwise,
at minute granularity. -/
theorem C3_tariff_lookup_matches_spec_table :
    ∀ (h : Fin 24) (m : Fin 60), calculateFeeByTimeHM h m = specTariffFee h.val m.val :=
  fun h m => (tariff_eval h m).1

/-! ## Claim C8 -/

/-- C8: the tariff lookup is total: with the configured interval set (which
includes the wrapping 18:30–05:59 interval) every minute of the day matches
some interval, so the first-match scan always finds one, the returned value
is that interval's fee, and the no-match default-0 branch is unreachable. -/
theorem C8_tariff_lookup_total_default_unreachable :
    ∀ (h : Fin 24) (m : Fin 60),
    ∃ iv, tollFeeIntervals.find?
        (fun i => isTimeInInterval (timeString h m) i.start i.stop) = some iv ∧
      calculateFeeByTimeHM h m = iv.fee := by
  intro h m
  obtain ⟨iv, hiv⟩ := Option.isSome_iff_exists.mp (tariff_eval h m).2
  exact ⟨iv, hiv, by simp [calculateFeeByTimeHM, hiv]⟩

/-! ## Claim C6 -/

/-- C6: `calculateFee` is 0 for every exempt vehicle category (motorbike,
emergency, diplomat, foreign, military, tractor, bus) and on every
Saturday, Sunday or registered holiday, regardless of time of day; for a
car on a non-toll-free date it is the tariff lookup value. -/
theorem C6_single_fee_zero_when_exempt_or_tollfree
    (holidays : List String) (v : Vehicle) (t : DateTime) :
    ((v.type = .motorbike ∨ v.type = .emergency ∨ v.type = .diplomat ∨
      v.type = .foreign ∨ v.type = .military ∨ v.type = .tractor ∨
      v.type = .bus) → calculateFee holidays v t = 0) ∧
    ((t.getDay = 6 ∨ t.getDay = 0 ∨ isHoliday holidays t = true) →
      calculateFee holidays v t = 0) ∧
    (v.type = .car → isTollFreeDate holidays t = false →
      calculateFee holidays v t = calculateFeeByTime t) := by
  refine ⟨?_, ?_, ?_⟩
  · intro h
    have hfree : v.isTollFree = true := by
      rcases h with h | h | h | h | h | h | h <;> simp [Vehicle.isTollFree, h] <;> decide
    simp [calculateFee, hfree]
  · intro h
    have hfree : isTollFreeDate holidays t = true := by
      rcases h with h | h | h
      · simp [isTollFreeDate, h]
      · simp [isTollFreeDate, h]
      · simp only [isTollFreeDate]
        split
        · rfl
        · exact h
    by_cases hv : v.isTollFree <;> simp [calculateFee, hv, hfree]
  · intro hcar hfree
    have hv : v.isTollFree = false := by
      simp [Vehicle.isTollFree, hcar]
      decide
    simp [calculateFee, hv, hfree]

/-- Witness for C6 at concrete inputs: a motorbike on a weekday rush hour,
a car on a Saturday, and a car on a plain Tuesday (2025-04-01 07:30). -/
theorem C6_witness :
    calculateFee [] ⟨.motorbike⟩ ⟨2025, 3, 0, 7, 30⟩ = 0 ∧
    calculateFee [] ⟨.car⟩ ⟨2025, 3, 4, 12, 0⟩ = 0 ∧
    calculateFee [] ⟨.car⟩ ⟨2025, 3, 0, 7, 30⟩ =
      calculateFeeByTime ⟨2025, 3, 0, 7, 30⟩ :=
  ⟨(C6_single_fee_zero_when_exempt_or_tollfree [] ⟨.motorbike⟩ _).1 (Or.inl rfl),
   (C6_single_fee_zero_when_exempt_or_tollfree [] ⟨.car⟩ _).2.1 (Or.inl (by decide)),
   (C6_single_fee_zero_when_exempt_or_tollfree [] ⟨.car⟩ _).2.2 rfl (by decide)⟩

/-! ## Claim C7 -/

/-- C7: for a non-exempt vehicle and a non-toll-free date, the daily fee of
the singleton passage list equals the single-passage fee. -/
theorem C7_daily_singleton_eq_single_fee
    (holidays : List String) (v : Vehicle) (t : DateTime)
    (hv : v.isTollFree = false) (hfree : isTollFreeDate holidays t = false) :
    calculateTotalDailyFee holidays v [t] = .ok (calculateFee holidays v t) := by
  rw [show ([t] : List DateTime) = t :: [] from rfl]
  rw [daily_eval holidays hv (by simp [sameDay_refl]) hfree]
  have hsort : sortDatesChronologically [t] = [t] := by
    simp [sortDatesChronologically]
  rw [hsort]
  have hfee : calculateFeeWithHourlyRule (mapPassagesToFees [t]) = calculateFeeByTime t := by
    simp [mapPassagesToFees, calculateFeeWithHourlyRule, hourlyLoop,
      findHighestFeeInTimeWindow, findHighestInWindow]
  rw [hfee]
  have hmin : min (calculateFeeByTime t) maxDailyFee = calculateFeeByTime t :=
    Nat.min_eq_left (le_trans (calculateFeeByTime_le t) (by simp [maxDailyFee]))
  rw [hmin]
  simp [calculateFee, hv, hfree]

/-! ## Claim C1 -/

/-- C1: for a non-exempt vehicle and a non-empty same-day passage list on a
non-toll-free date, `calculateTotalDailyFee` equals the spec's anchored
rolling-window reference: sort chronologically, resolve raw tariff fees,
repeatedly charge the maximum fee of the window of passages strictly less
than 60 minutes after the current anchor, advance to the first passage
outside the window, and cap the total at 60. -/
theorem C1_daily_fee_matches_rolling_window_reference
    (holidays : List String) (v : Vehicle) (first : DateTime) (rest : List DateTime)
    (hv : v.isTollFree = false)
    (hsame : ∀ a ∈ first :: rest, ∀ b ∈ first :: rest, sameDay a b = true)
    (hfree : isTollFreeDate holidays first = false) :
    calculateTotalDailyFee holidays v (first :: rest) =
      .ok (refDailyFee (first :: rest)) := by
  rw [daily_eval holidays hv (all_to_first hsame) hfree, hourlyRule_eq_ref]
  rfl

/-- Witness for C1: a car with passages 06:55 and 07:10 on 2025-04-01 (a
Tuesday). -/
theorem C1_witness :
    (Vehicle.isTollFree ⟨.car⟩ = false ∧
      (∀ a ∈ [(⟨2025, 3, 0, 6, 55⟩ : DateTime), ⟨2025, 3, 0, 7, 10⟩],
        ∀ b ∈ [(⟨2025, 3, 0, 6, 55⟩ : DateTime), ⟨2025, 3, 0, 7, 10⟩],
          sameDay a b = true) ∧
      isTollFreeDate [] ⟨2025, 3, 0, 6, 55⟩ = false) ∧
    calculateTotalDailyFee [] ⟨.car⟩ [⟨2025, 3, 0, 6, 55⟩, ⟨2025, 3, 0, 7, 10⟩] =
      .ok (refDailyFee [⟨2025, 3, 0, 6, 55⟩, ⟨2025, 3, 0, 7, 10⟩]) :=
  ⟨⟨by decide, by decide, by decide⟩,
   C1_daily_fee_matches_rolling_window_reference [] ⟨.car⟩ _ _
     (by decide) (by decide) (by decide)⟩

/-! ## Claim C2 (corrected) -/

/-- C2 as amended: for every NON-EXEMPT vehicle, `calculateTotalDailyFee`
fails with the validation error whenever the list is non-empty and the
passages do not all share one calendar date; and for every vehicle the
empty list yields 0 without error. (As originally stated — for every
vehicle — the first part is false: the exemption short-circuit runs before
validation, see the counterexample.) -/
theorem C2_daily_validation_corrected
    (holidays : List String) (v : Vehicle) (first : DateTime) (rest : List DateTime)
    (hv : v.isTollFree = false)
    (hnot : ¬ ∀ a ∈ first :: rest, ∀ b ∈ first :: rest, sameDay a b = true) :
    (∃ msg, calculateTotalDailyFee holidays v (first :: rest) = .error msg) ∧
    ∀ (v2 : Vehicle) (hol2 : List String), calculateTotalDailyFee hol2 v2 [] = .ok 0 := by
  constructor
  · have hall : (first :: rest).all (fun d => sameDay d first) = false := by
      cases hb : (first :: rest).all (fun d => sameDay d first)
      · rfl
      · exact absurd (allSameDay_pairs hb) hnot
    exact ⟨_, daily_error holidays hv hall⟩
  · intro v2 hol2
    exact daily_empty hol2 v2

/-- Counterexample to C2 as stated: for an exempt vehicle (motorbike) and a
cross-day passage list the function returns `.ok 0` instead of failing. -/
theorem C2_counterexample :
    sameDay ⟨2025, 3, 0, 7, 30⟩ ⟨2025, 3, 1, 7, 30⟩ = false ∧
    calculateTotalDailyFee [] ⟨.motorbike⟩
      [⟨2025, 3, 0, 7, 30⟩, ⟨2025, 3, 1, 7, 30⟩] = .ok 0 :=
  ⟨by decide, rfl⟩

/-- Witness for C2 (amended): a car with passages on 2025-04-01 and
2025-04-02. -/
theorem C2_witness :
    (Vehicle.isTollFree ⟨.car⟩ = false ∧
      ¬ ∀ a ∈ [(⟨2025, 3, 0, 7, 30⟩ : DateTime), ⟨2025, 3, 1, 7, 30⟩],
        ∀ b ∈ [(⟨2025, 3, 0, 7, 30⟩ : DateTime), ⟨2025, 3, 1, 7, 30⟩],
          sameDay a b = true) ∧
    ((∃ msg, calculateTotalDailyFee [] ⟨.car⟩
        [⟨2025, 3, 0, 7, 30⟩, ⟨2025, 3, 1, 7, 30⟩] = .error msg) ∧
      ∀ (v2 : Vehicle) (hol2 : List String),
        calculateTotalDailyFee hol2 v2 [] = .ok 0) :=
  ⟨⟨by decide, by decide⟩,
   C2_daily_validation_corrected [] ⟨.car⟩ _ _ (by decide) (by decide)⟩

/-! ## Claim C5 -/

lemma chronoLe_trans : ∀ (a b c : DateTime),
    chronoLe a b = true → chronoLe b c = true → chronoLe a c = true := by
  intro a b c hab hbc
  simp only [chronoLe, decide_eq_true_eq] at hab hbc ⊢
  omega

lemma chronoLe_total : ∀ (a b : DateTime), (chronoLe a b || chronoLe b a) = true := by
  intro a b
  simp only [chronoLe, Bool.or_eq_true, decide_eq_true_eq]
  omega

/-- On a list whose consecutive passages are pairwise at least 60 minutes
apart, every rolling window is a singleton, so the reference total is the
plain sum of fees. -/
lemma refRolling_of_separated : ∀ (l : List PassageWithFee),
    l.Pairwise (fun a b => a.time + 60 ≤ b.time) →
    refRollingTotal l = (l.map (fun q => q.fee)).sum := by
  intro l
  induction l with
  | nil => intro _; rfl
  | cons p rest ih =>
    intro hp
    have hhead := (List.pairwise_cons.mp hp).1
    have htail := (List.pairwise_cons.mp hp).2
    have htake : rest.takeWhile (inWindowOf p.time) = [] := by
      cases rest with
      | nil => rfl
      | cons q rs =>
        have hq : inWindowOf p.time q = false := by
          have := hhead q (List.mem_cons_self _ _)
          simp only [inWindowOf, decide_eq_false_iff_not]
          omega
        simp [List.takeWhile_cons, hq]
    have hdropw : rest.dropWhile (inWindowOf p.time) = rest := by
      cases rest with
      | nil => rfl
      | cons q rs =>
        have hq : inWindowOf p.time q = false := by
          have := hhead q (List.mem_cons_self _ _)
          simp only [inWindowOf, decide_eq_false_iff_not]
          omega
        simp [List.dropWhile_cons, hq]
    show refRollingLoop (rest.length + 1) (p :: rest) = _
    simp only [refRollingLoop, htake, hdropw]
    rw [show refRollingLoop rest.length rest = refRollingTotal rest from rfl, ih htail]
    simp

/-- C5: for a non-exempt vehicle on a non-toll-free date, when every pair
of same-day passages is at least 60 minutes apart the daily fee is the
capped plain sum `min(Σ individual fees, 60)`. -/
theorem C5_separated_passages_sum_capped
    (holidays : List String) (v : Vehicle) (first : DateTime) (rest : List DateTime)
    (hv : v.isTollFree = false)
    (hsame : ∀ a ∈ first :: rest, ∀ b ∈ first :: rest, sameDay a b = true)
    (hfree : isTollFreeDate holidays first = false)
    (hsep : (first :: rest).Pairwise
      (fun a b => 60 ≤ ((a.getTime : Int) - (b.getTime : Int)).natAbs)) :
    calculateTotalDailyFee holidays v (first :: rest) =
      .ok (min (((first :: rest).map calculateFeeByTime).sum) 60) := by
  rw [daily_eval holidays hv (all_to_first hsame) hfree]
  have hperm : (sortDatesChronologically (first :: rest)).Perm (first :: rest) :=
    List.mergeSort_perm _ _
  have hsorted : (sortDatesChronologically (first :: rest)).Pairwise
      (fun a b => chronoLe a b = true) :=
    List.sorted_mergeSort chronoLe_trans chronoLe_total _
  have hsep2 : (sortDatesChronologically (first :: rest)).Pairwise
      (fun a b => 60 ≤ ((a.getTime : Int) - (b.getTime : Int)).natAbs) := by
    rw [List.Perm.pairwise_iff ?_ hperm]
    · exact hsep
    · intro a b h
      omega
  have hsep3 : (mapPassagesToFees (sortDatesChronologically (first :: rest))).Pairwise
      (fun a b => a.time + 60 ≤ b.time) := by
    unfold mapPassagesToFees
    rw [List.pairwise_map]
    apply (hsorted.and hsep2).imp
    intro a b hab
    have h1 := hab.1
    have h2 := hab.2
    simp only [chronoLe, decide_eq_true_eq] at h1
    simp only []
    omega
  rw [hourlyRule_eq_ref, refRolling_of_separated _ hsep3]
  unfold mapPassagesToFees
  rw [List.map_map]
  have hs : ((sortDatesChronologically (first :: rest)).map calculateFeeByTime).sum =
      ((first :: rest).map calculateFeeByTime).sum :=
    (hperm.map _).sum_eq
  rw [show ((fun q : PassageWithFee => q.fee) ∘ fun d : DateTime =>
      (⟨d.getTime, calculateFeeByTime d⟩ : PassageWithFee)) = calculateFeeByTime from rfl]
  rw [hs]
  rfl

/-- Witness for C5: a car with passages 07:30 and 08:31 (61 minutes apart)
on 2025-04-01. -/
theorem C5_witness :
    (Vehicle.isTollFree ⟨.car⟩ = false ∧
      (∀ a ∈ [(⟨2025, 3, 0, 7, 30⟩ : DateTime), ⟨2025, 3, 0, 8, 31⟩],
        ∀ b ∈ [(⟨2025, 3, 0, 7, 30⟩ : DateTime), ⟨2025, 3, 0, 8, 31⟩],
          sameDay a b = true) ∧
      isTollFreeDate [] ⟨2025, 3, 0, 7, 30⟩ = false ∧
      ([(⟨2025, 3, 0, 7, 30⟩ : DateTime), ⟨2025, 3, 0, 8, 31⟩].Pairwise
        (fun a b => 60 ≤ ((a.getTime : Int) - (b.getTime : Int)).natAbs))) ∧
    calculateTotalDailyFee [] ⟨.car⟩ [⟨2025, 3, 0, 7, 30⟩, ⟨2025, 3, 0, 8, 31⟩] =
      .ok (min (([(⟨2025, 3, 0, 7, 30⟩ : DateTime), ⟨2025, 3, 0, 8, 31⟩].map
        calculateFeeByTime).sum) 60) :=
  ⟨⟨by decide, by decide, by decide, by decide⟩,
   C5_separated_passages_sum_capped [] ⟨.car⟩ _ _
     (by decide) (by decide) (by decide) (by decide)⟩

/-! ## Claim C10 -/

lemma getTime_inj_hm {a b : DateTime} (h : a.getTime = b.getTime) :
    a.hour = b.hour ∧ a.minute = b.minute := by
  have ha1 := a.hour.isLt
  have ha2 := a.minute.isLt
  have hb1 := b.hour.isLt
  have hb2 := b.minute.isLt
  unfold DateTime.getTime at h
  constructor <;> apply Fin.ext <;> omega

lemma feeByTime_congr_getTime {a b : DateTime} (h : a.getTime = b.getTime) :
    calculateFeeByTime a = calculateFeeByTime b := by
  obtain ⟨hh, hm⟩ := getTime_inj_hm h
  unfold calculateFeeByTime
  rw [hh, hm]

lemma mapPassages_eq_of_times_eq : ∀ {l₁ l₂ : List DateTime},
    l₁.map DateTime.getTime = l₂.map DateTime.getTime →
    mapPassagesToFees l₁ = mapPassagesToFees l₂ := by
  intro l₁
  induction l₁ with
  | nil =>
    intro l₂ h
    cases l₂ with
    | nil => rfl
    | cons b bs => simp at h
  | cons a as ih =>
    intro l₂ h
    cases l₂ with
    | nil => simp at h
    | cons b bs =>
      simp only [List.map_cons, List.cons.injEq] at h
      simp only [mapPassagesToFees, List.map_cons, List.cons.injEq]
      refine ⟨?_, ih h.2⟩
      rw [h.1, feeByTime_congr_getTime h.1]

lemma sorted_times_pairwise (l : List DateTime) :
    ((sortDatesChronologically l).map DateTime.getTime).Pairwise (· ≤ ·) := by
  rw [List.pairwise_map]
  apply (List.sorted_mergeSort chronoLe_trans chronoLe_total l).imp
  intro a b h
  simpa [chronoLe] using h

lemma sort_times_eq_of_perm {l₁ l₂ : List DateTime} (hp : l₁.Perm l₂) :
    (sortDatesChronologically l₁).map DateTime.getTime =
    (sortDatesChronologically l₂).map DateTime.getTime :=
  List.eq_of_perm_of_sorted
    ((((List.mergeSort_perm l₁ chronoLe).trans hp).trans
      (List.mergeSort_perm l₂ chronoLe).symm).map DateTime.getTime)
    (sorted_times_pairwise l₁) (sorted_times_pairwise l₂)

lemma all_to_first_false {first : DateTime} {rest : List DateTime}
    (hnot : ¬ ∀ a ∈ first :: rest, ∀ b ∈ first :: rest, sameDay a b = true) :
    (first :: rest).all (fun d => sameDay d first) = false := by
  cases hb : (first :: rest).all (fun d => sameDay d first)
  · rfl
  · exact absurd (allSameDay_pairs hb) hnot

/-- C10: the outcome of `calculateTotalDailyFee` is invariant under
permutation of the passage list: two reorderings either both throw or both
return the same fee (stated via `Except.toOption`, which is `none` exactly
on the throwing runs). -/
theorem C10_daily_fee_invariant_under_permutation
    (holidays : List String) (v : Vehicle) (l₁ l₂ : List DateTime) (hp : l₁.Perm l₂) :
    (calculateTotalDailyFee holidays v l₁).toOption =
    (calculateTotalDailyFee holidays v l₂).toOption := by
  by_cases hv : v.isTollFree
  · rw [daily_exempt holidays l₁ hv, daily_exempt holidays l₂ hv]
  · have hv2 : v.isTollFree = false := by simpa using hv
    cases l₁ with
    | nil =>
      have h2 : l₂ = [] := hp.symm.eq_nil
      rw [h2]
    | cons f₁ r₁ =>
      cases l₂ with
      | nil =>
        have := hp.length_eq
        simp at this
      | cons f₂ r₂ =>
        by_cases hall : ∀ a ∈ f₁ :: r₁, ∀ b ∈ f₁ :: r₁, sameDay a b = true
        · have hall₂ : ∀ a ∈ f₂ :: r₂, ∀ b ∈ f₂ :: r₂, sameDay a b = true :=
            fun a ha b hb => hall a (hp.mem_iff.mpr ha) b (hp.mem_iff.mpr hb)
          have hf2mem : f₂ ∈ f₁ :: r₁ := hp.mem_iff.mpr (List.mem_cons_self _ _)
          have hsame12 : sameDay f₁ f₂ = true :=
            hall f₁ (List.mem_cons_self _ _) f₂ hf2mem
          by_cases hfree : isTollFreeDate holidays f₁ = true
          · rw [daily_tollfree holidays hv2 (all_to_first hall) hfree,
              daily_tollfree holidays hv2 (all_to_first hall₂)
                ((isTollFreeDate_congr holidays hsame12).symm.trans hfree)]
          · have hfree1 : isTollFreeDate holidays f₁ = false := by simpa using hfree
            have hfree2 : isTollFreeDate holidays f₂ = false :=
              (isTollFreeDate_congr holidays hsame12).symm.trans hfree1
            rw [daily_eval holidays hv2 (all_to_first hall) hfree1,
              daily_eval holidays hv2 (all_to_first hall₂) hfree2,
              mapPassages_eq_of_times_eq (sort_times_eq_of_perm hp)]
        · have hall₂ : ¬ ∀ a ∈ f₂ :: r₂, ∀ b ∈ f₂ :: r₂, sameDay a b = true :=
            fun h => hall (fun a ha b hb =>
              h a (hp.mem_iff.mp ha) b (hp.mem_iff.mp hb))
          rw [daily_error holidays hv2 (all_to_first_false hall),
            daily_error holidays hv2 (all_to_first_false hall₂)]
          rfl

/-- Witness for C10: the two orderings of a car's passages at 07:10 and
06:55 on 2025-04-01. -/
theorem C10_witness :
    ([(⟨2025, 3, 0, 7, 10⟩ : DateTime), ⟨2025, 3, 0, 6, 55⟩].Perm
      [⟨2025, 3, 0, 6, 55⟩, ⟨2025, 3, 0, 7, 10⟩]) ∧
    (calculateTotalDailyFee [] ⟨.car⟩
        [⟨2025, 3, 0, 7, 10⟩, ⟨2025, 3, 0, 6, 55⟩]).toOption =
      (calculateTotalDailyFee [] ⟨.car⟩
        [⟨2025, 3, 0, 6, 55⟩, ⟨2025, 3, 0, 7, 10⟩]).toOption :=
  ⟨List.Perm.swap _ _ _,
   C10_daily_fee_invariant_under_permutation [] ⟨.car⟩ _ _ (List.Perm.swap _ _ _)⟩

/-! ## Claims C4 and C9: the monthly partition -/

lemma addToGroup_good {m : List (String × List DateTime)} {k : String} {d : DateTime}
    (hm : ∀ g ∈ m, g.2 ≠ [] ∧ ∀ x ∈ g.2, formatDate x = g.1)
    (hk : formatDate d = k) :
    ∀ g ∈ addToGroup m k d, g.2 ≠ [] ∧ ∀ x ∈ g.2, formatDate x = g.1 := by
  induction m with
  | nil =>
    intro g hg
    simp only [addToGroup, List.mem_singleton] at hg
    subst hg
    exact ⟨by simp, by simpa using hk⟩
  | cons p rest ih =>
    intro g hg
    obtain ⟨k2, ds⟩ := p
    simp only [addToGroup] at hg
    by_cases hkk : (k2 == k) = true
    · rw [if_pos hkk] at hg
      rcases List.mem_cons.mp hg with hg | hg
      · subst hg
        refine ⟨by simp, ?_⟩
        intro x hx
        rcases List.mem_append.mp hx with hx | hx
        · exact (hm ⟨k2, ds⟩ (List.mem_cons_self _ _)).2 x hx
        · rw [List.mem_singleton.mp hx, hk]
          exact (eq_of_beq hkk).symm
      · exact hm _ (List.mem_cons_of_mem _ hg)
    · rw [if_neg hkk] at hg
      rcases List.mem_cons.mp hg with hg | hg
      · subst hg
        exact hm _ (List.mem_cons_self _ _)
      · exact ih (fun g2 hg2 => hm g2 (List.mem_cons_of_mem _ hg2)) g hg

lemma passagesByDay_good (dates : List DateTime) :
    ∀ g ∈ passagesByDay dates, g.2 ≠ [] ∧ ∀ x ∈ g.2, formatDate x = g.1 := by
  suffices h : ∀ (acc : List (String × List DateTime)),
      (∀ g ∈ acc, g.2 ≠ [] ∧ ∀ x ∈ g.2, formatDate x = g.1) →
      ∀ g ∈ dates.foldl (fun m d => addToGroup m (formatDate d) d) acc,
        g.2 ≠ [] ∧ ∀ x ∈ g.2, formatDate x = g.1 by
    exact h [] (by simp)
  induction dates with
  | nil => intro acc hacc; simpa using hacc
  | cons d ds ih =>
    intro acc hacc
    exact ih _ (addToGroup_good hacc rfl)

lemma addToGroup_join (m : List (String × List DateTime)) (k : String) (d : DateTime) :
    ((addToGroup m k d).map Prod.snd).flatten.Perm ((m.map Prod.snd).flatten ++ [d]) := by
  induction m with
  | nil => simp [addToGroup]
  | cons p rest ih =>
    obtain ⟨k2, ds⟩ := p
    simp only [addToGroup]
    by_cases hkk : (k2 == k) = true
    · rw [if_pos hkk]
      simp only [List.map_cons, List.flatten_cons]
      rw [List.append_assoc, List.append_assoc]
      exact (@List.perm_append_comm _ [d] ((rest.map Prod.snd).flatten)).append_left ds
    · rw [if_neg hkk]
      simp only [List.map_cons, List.flatten_cons]
      rw [List.append_assoc]
      exact ih.append_left ds

lemma passagesByDay_join (dates : List DateTime) :
    ((passagesByDay dates).map Prod.snd).flatten.Perm dates := by
  suffices h : ∀ (acc : List (String × List DateTime)),
      ((dates.foldl (fun m d => addToGroup m (formatDate d) d) acc).map Prod.snd).flatten.Perm
        ((acc.map Prod.snd).flatten ++ dates) by
    simpa using h []
  induction dates with
  | nil => intro acc; simp
  | cons d ds ih =>
    intro acc
    simp only [List.foldl_cons]
    have h1 := ih (addToGroup acc (formatDate d) d)
    have h2 := (addToGroup_join acc (formatDate d) d).append_right ds
    have h3 : ((acc.map Prod.snd).flatten ++ [d]) ++ ds =
        (acc.map Prod.snd).flatten ++ (d :: ds) := by simp
    exact h3 ▸ (h1.trans h2)

lemma daily_ok_of_same_day (holidays : List String) (v : Vehicle) (l : List DateTime)
    (hl : ∀ a ∈ l, ∀ b ∈ l, sameDay a b = true) :
    ∃ n, calculateTotalDailyFee holidays v l = .ok n := by
  by_cases hv : v.isTollFree
  · exact ⟨0, daily_exempt holidays l hv⟩
  · have hv2 : v.isTollFree = false := by simpa using hv
    cases l with
    | nil => exact ⟨0, daily_empty holidays v⟩
    | cons f r =>
      by_cases hfree : isTollFreeDate holidays f = true
      · exact ⟨0, daily_tollfree holidays hv2 (all_to_first hl) hfree⟩
      · exact ⟨_, daily_eval holidays hv2 (all_to_first hl)
          (by simpa using hfree)⟩

lemma monthlyLoop_spec (holidays : List String) (v : Vehicle) :
    ∀ groups : List (String × List DateTime),
    (∀ g ∈ groups, ∀ a ∈ g.2, ∀ b ∈ g.2, sameDay a b = true) →
    monthlyLoop holidays v groups =
      .ok ((groups.map (dailyVal holidays v)).sum,
        groups.filterMap (mkEntry holidays v)) := by
  intro groups
  induction groups with
  | nil => intro _; rfl
  | cons g rest ih =>
    intro hg
    obtain ⟨dayKey, dayPassages⟩ := g
    have hsame : ∀ a ∈ List.mergeSort dayPassages chronoLe,
        ∀ b ∈ List.mergeSort dayPassages chronoLe, sameDay a b = true := by
      intro a ha b hb
      exact hg _ (List.mem_cons_self _ _) a (List.mem_mergeSort.mp ha)
        b (List.mem_mergeSort.mp hb)
    obtain ⟨n, hn⟩ := daily_ok_of_same_day holidays v _ hsame
    have hval : dailyVal holidays v (dayKey, dayPassages) = n := by
      simp [dailyVal, hn, Except.toOption]
    simp only [monthlyLoop, hn, ih (fun g2 hg2 => hg g2 (List.mem_cons_of_mem _ hg2))]
    by_cases hpos : 0 < n
    · simp only [if_pos hpos, List.map_cons, List.sum_cons, hval,
        List.filterMap_cons]
      rw [show mkEntry holidays v (dayKey, dayPassages) =
        some ⟨dayKey, (List.mergeSort dayPassages chronoLe).map formatTimeHM, n⟩ by
          simp [mkEntry, hval, hpos]]
    · have hz : n = 0 := by omega
      simp only [if_neg hpos, List.map_cons, List.sum_cons, hval, hz,
        List.filterMap_cons]
      rw [show mkEntry holidays v (dayKey, dayPassages) = none by
        simp [mkEntry, hval, hz]]
      simp

lemma passagesByDay_same_day (dates : List DateTime) :
    ∀ g ∈ passagesByDay dates, ∀ a ∈ g.2, ∀ b ∈ g.2, sameDay a b = true := by
  intro g hg a ha b hb
  have h := (passagesByDay_good dates g hg).2
  exact sameDay_of_formatDate_eq ((h a ha).trans (h b hb).symm)

lemma sum_filter_pos (f : (String × List DateTime) → Nat) :
    ∀ l : List (String × List DateTime),
    (l.map f).sum = ((l.filter (fun x => 0 < f x)).map f).sum := by
  intro l
  induction l with
  | nil => rfl
  | cons x xs ih =>
    by_cases hx : 0 < f x
    · have hd : (decide (0 < f x)) = true := decide_eq_true hx
      simp only [List.map_cons, List.sum_cons, List.filter_cons, hd, if_true,
        List.map_cons]
      rw [ih]
    · have hz : f x = 0 := by omega
      have hd : (decide (0 < f x)) = false := by simpa using hx
      simp only [List.map_cons, List.sum_cons, List.filter_cons, hd, hz,
        Nat.zero_add, Bool.false_eq_true, if_false]
      exact ih

/-! ## Claim C9 -/

/-- C9: `calculateTotalMonthlyFee` never raises the cross-day validation
error: every group of its per-day partition is keyed by `formatDate`, whose
equality forces equality of the year/month/day fields that
`validateSameDayPassages` compares, so every daily computation succeeds. -/
theorem C9_monthly_never_raises_validation_error
    (holidays : List String) (v : Vehicle) (dates : List DateTime) :
    ∃ s, calculateTotalMonthlyFee holidays v dates = .ok s := by
  unfold calculateTotalMonthlyFee
  split
  · exact ⟨⟨0, []⟩, rfl⟩
  · rw [monthlyLoop_spec holidays v _ (passagesByDay_same_day dates)]
    exact ⟨_, rfl⟩

/-! ## Claim C4 -/

/-- C4: for a non-exempt vehicle, `calculateTotalMonthlyFee` partitions the
passages into calendar-day groups (the groups flatten back to the input and
every member renders to its group's `formatDate` key), its `totalFee` is
the sum of the daily fees over the groups with nonzero fee, its
`dailyBreakdown` consists of exactly the nonzero-fee groups, and the
breakdown is sorted ascending by the date string. -/
theorem C4_monthly_summary_structure
    (holidays : List String) (v : Vehicle) (dates : List DateTime)
    (hv : v.isTollFree = false) :
    ∃ s, calculateTotalMonthlyFee holidays v dates = .ok s ∧
      ((passagesByDay dates).map Prod.snd).flatten.Perm dates ∧
      (∀ g ∈ passagesByDay dates, ∀ x ∈ g.2, formatDate x = g.1) ∧
      s.totalFee = (((passagesByDay dates).filter
        (fun g => 0 < dailyVal holidays v g)).map (dailyVal holidays v)).sum ∧
      s.dailyBreakdown.Perm ((passagesByDay dates).filterMap (mkEntry holidays v)) ∧
      s.dailyBreakdown.Pairwise (fun a b => strLe a.date b.date = true) := by
  cases dates with
  | nil =>
    refine ⟨⟨0, []⟩, ?_, ?_, ?_, ?_, ?_, ?_⟩ <;>
      simp [calculateTotalMonthlyFee, passagesByDay]
  | cons d ds =>
    have hcond : (v.isTollFree || (d :: ds).length == 0) = false := by
      rw [hv]
      simp
    refine ⟨⟨((passagesByDay (d :: ds)).map (dailyVal holidays v)).sum,
      List.mergeSort ((passagesByDay (d :: ds)).filterMap (mkEntry holidays v))
        (fun a b : DailyPassageDetails => strLe a.date b.date)⟩, ?_, ?_, ?_, ?_, ?_, ?_⟩
    · have hcond2 : ¬ ((v.isTollFree || (d :: ds).length == 0) = true) := by
        rw [hcond]
        simp
      unfold calculateTotalMonthlyFee
      rw [if_neg hcond2]
      rw [monthlyLoop_spec holidays v _ (passagesByDay_same_day (d :: ds))]
    · exact passagesByDay_join (d :: ds)
    · intro g hg
      exact (passagesByDay_good (d :: ds) g hg).2
    · exact sum_filter_pos (dailyVal holidays v) _
    · exact List.mergeSort_perm _ _
    · apply List.sorted_mergeSort
      · intro a b c hab hbc
        exact strLe_trans hab hbc
      · intro a b
        exact strLe_total a.date b.date

/-- Witness for C4: a car with one passage on 2025-04-01 07:30. -/
theorem C4_witness :
    Vehicle.isTollFree ⟨.car⟩ = false ∧
    ∃ s, calculateTotalMonthlyFee [] ⟨.car⟩ [⟨2025, 3, 0, 7, 30⟩] = .ok s ∧
      ((passagesByDay [(⟨2025, 3, 0, 7, 30⟩ : DateTime)]).map Prod.snd).flatten.Perm
        [⟨2025, 3, 0, 7, 30⟩] ∧
      (∀ g ∈ passagesByDay [(⟨2025, 3, 0, 7, 30⟩ : DateTime)],
        ∀ x ∈ g.2, formatDate x = g.1) ∧
      s.totalFee = (((passagesByDay [(⟨2025, 3, 0, 7, 30⟩ : DateTime)]).filter
        (fun g => 0 < dailyVal [] ⟨.car⟩ g)).map (dailyVal [] ⟨.car⟩)).sum ∧
      s.dailyBreakdown.Perm ((passagesByDay
        [(⟨2025, 3, 0, 7, 30⟩ : DateTime)]).filterMap (mkEntry [] ⟨.car⟩)) ∧
      s.dailyBreakdown.Pairwise (fun a b => strLe a.date b.date = true) :=
  ⟨by decide, C4_monthly_summary_structure [] ⟨.car⟩ _ (by decide)⟩

/-- Witness for C7: a car passing at 2025-04-01 (a Tuesday) 07:30. -/
theorem C7_witness :
    (Vehicle.isTollFree ⟨.car⟩ = false ∧
      isTollFreeDate [] ⟨2025, 3, 0, 7, 30⟩ = false) ∧
    calculateTotalDailyFee [] ⟨.car⟩ [⟨2025, 3, 0, 7, 30⟩] =
      .ok (calculateFee [] ⟨.car⟩ ⟨2025, 3, 0, 7, 30⟩) :=
  ⟨⟨by decide, by decide⟩,
   C7_daily_singleton_eq_single_fee [] ⟨.car⟩ _ (by decide) (by decide)⟩

end Toll
